import Mathlib

/- Verification of the Chat2Snack order ledger and FPGA command protocol.

The definitions below are a shallow embedding of the Python sources
`chat2snack_controller.py`, `app.py` and `test.py`:

* `Table` models the `current_order` dictionary (five fixed keys).
* `update_order` models `update_order` (identical clamping logic in both files).
* `generate_fpga_command` models `generate_fpga_command` (identical bit packing
  in both files; Python `qty & 0b111` on an `int` equals `qty % 8` in
  Euclidean arithmetic, which is `Int.emod` here).
* `format016b` models the Python f-string rendering of the command,
  binary and zero-padded to width 16.
* `send_to_fpga_bytes` models the payload built in `send_to_fpga`
  (`bytearray([(command_int >> 8) & 0xFF, command_int & 0xFF])`), and
  `send_16bit_command_bytes` models `bytes([low_byte, high_byte])`
  from `test.py`.
* `Controller.process_line` / `Controller.process_llm_response` model
  `process_llm_response` of `chat2snack_controller.py`; that file calls
  `generate_fpga_command(dis1pense_now=True)` (a typo for `dispense_now`),
  which raises `TypeError` in Python, modelled by the `none` / crash flag.
* `App.process_line` / `App.process_llm_response` model
  `process_llm_response` of `app.py` (alias handling, clamp-on-request,
  working dispense branch).
-/

/-- The cart: `current_order = {"burger": 0, "fries": 0, "soda": 0,
"ice_cream": 0, "pizza": 0}`.  Python ints are unbounded and signed,
so quantities are modelled as `Int`. -/
structure Table where
  burger : Int
  fries : Int
  soda : Int
  ice_cream : Int
  pizza : Int
deriving DecidableEq, Repr

/-- The key set of `current_order`, in dictionary insertion order. -/
def foods : List String := ["burger", "fries", "soda", "ice_cream", "pizza"]

/-- Dictionary lookup `current_order.get(food_item, 0)`. -/
def Table.get (t : Table) (f : String) : Int :=
  if f = "burger" then t.burger
  else if f = "fries" then t.fries
  else if f = "soda" then t.soda
  else if f = "ice_cream" then t.ice_cream
  else if f = "pizza" then t.pizza
  else 0

/-- Dictionary store `current_order[food_item] = v` (only ever reached for
one of the five keys). -/
def Table.set (t : Table) (f : String) (v : Int) : Table :=
  if f = "burger" then { t with burger := v }
  else if f = "fries" then { t with fries := v }
  else if f = "soda" then { t with soda := v }
  else if f = "ice_cream" then { t with ice_cream := v }
  else if f = "pizza" then { t with pizza := v }
  else t

/-- Constant `MAX_QTY = 7`. -/
def MAX_QTY : Int := 7

/-- The all-zero cart created at session start. -/
def zeroTable : Table := ⟨0, 0, 0, 0, 0⟩

/-- Function `update_order(food_item, quantity)`: reject unknown items,
otherwise add the signed delta and clamp the result into `[0, MAX_QTY]`. -/
def update_order (t : Table) (food_item : String) (quantity : Int) : Table :=
  if food_item ∉ foods then t
  else
    let new_qty := t.get food_item + quantity
    if new_qty > MAX_QTY then t.set food_item MAX_QTY
    else if new_qty < 0 then t.set food_item 0
    else t.set food_item new_qty

/-- A sequence of add/remove operations applied in order through
`update_order` (an `Add(item, q)` is the pair `(item, q)`, a
`Remove(item, q)` is `(item, -q)`). -/
def apply_ops (t : Table) (ops : List (String × Int)) : Table :=
  ops.foldl (fun s p => update_order s p.1 p.2) t

/-- Constant table `FOOD_BIT_OFFSETS`. -/
def FOOD_BIT_OFFSETS : String → Nat
  | "burger" => 0
  | "fries" => 3
  | "soda" => 6
  | "ice_cream" => 9
  | "pizza" => 12
  | _ => 0

/-- Constant `DISPENSE_BIT_OFFSET = 15`. -/
def DISPENSE_BIT_OFFSET : Nat := 15

/-- Python `qty & 0b111` on a signed unbounded int: the two's-complement
bitwise and with `0b111` equals the Euclidean remainder mod 8. -/
def mask3 (q : Int) : Nat := (q % 8).toNat

/-- Binary digits of `n`, most significant first (empty for 0); the fuel
argument makes the halving recursion structural.  `binDigitsGo n n` is the
digit list of the Python binary rendering of `n` (up to the `n = 0` case,
where the zero-padding below makes the two renderings agree). -/
def binDigitsGo : Nat → Nat → List Char
  | 0, _ => []
  | _ + 1, 0 => []
  | f + 1, n + 1 =>
    binDigitsGo f ((n + 1) / 2) ++ [if (n + 1) % 2 = 1 then '1' else '0']

/-- Python format-spec `016b` applied to `n`: binary rendering, zero-padded
on the left to at least 16 characters. -/
def format016b (n : Nat) : String :=
  let ds := binDigitsGo n n
  String.mk (List.replicate (16 - ds.length) '0' ++ ds)

/-- Function `generate_fpga_command(dispense_now)`: fold
`command |= (qty & 0b111) << offset` over the five items in dictionary
order, set bit 15 when requested, return the command and its 16-character
binary rendering. -/
def generate_fpga_command (t : Table) (dispense_now : Bool) : Nat × String :=
  let command : Nat := 0
  let command := command ||| (mask3 t.burger <<< FOOD_BIT_OFFSETS "burger")
  let command := command ||| (mask3 t.fries <<< FOOD_BIT_OFFSETS "fries")
  let command := command ||| (mask3 t.soda <<< FOOD_BIT_OFFSETS "soda")
  let command := command ||| (mask3 t.ice_cream <<< FOOD_BIT_OFFSETS "ice_cream")
  let command := command ||| (mask3 t.pizza <<< FOOD_BIT_OFFSETS "pizza")
  let command := if dispense_now then command ||| (1 <<< DISPENSE_BIT_OFFSET) else command
  (command, format016b command)

/-- The two-byte payload written by `send_to_fpga`:
`bytearray([(command_int >> 8) & 0xFF, command_int & 0xFF])`. -/
def send_to_fpga_bytes (command_int : Nat) : List Nat :=
  [(command_int >>> 8) &&& 0xFF, command_int &&& 0xFF]

/-- The two-byte payload written by `send_16bit_command` in `test.py`:
`low_byte = command & 0xFF`, `high_byte = (command >> 8) & 0xFF`,
`bytes([low_byte, high_byte])` (low byte first). -/
def send_16bit_command_bytes (command : Nat) : List Nat :=
  [command &&& 0xFF, (command >>> 8) &&& 0xFF]

/-- Python `int(s)` on a whitespace-free ASCII token: one or more digits;
anything else raises `ValueError` (modelled by `none`). -/
def parseDigits (l : List Char) : Option Nat :=
  if l = [] then none
  else if l.all (fun c => c.isDigit) then
    some (l.foldl (fun acc c => 10 * acc + (c.toNat - 48)) 0)
  else none

/-- Signed wrapper around `parseDigits`, completing the model of Python
`int(s)`: an optional single leading sign. -/
def parseInt (s : String) : Option Int :=
  match s.toList with
  | '-' :: rest => (parseDigits rest).map (fun n => -(n : Int))
  | '+' :: rest => (parseDigits rest).map (fun n => (n : Int))
  | l => (parseDigits l).map (fun n => (n : Int))

/-- Python `str.strip()` with no argument: drop whitespace from both ends. -/
def pyStrip (s : String) : String :=
  String.mk (((s.toList.dropWhile Char.isWhitespace).reverse.dropWhile
    Char.isWhitespace).reverse)

/-- Python `str.strip(chars)`: drop any of the given characters from both
ends.  Used for the quote-stripping pass over each line. -/
def pyStripChars (cs : List Char) (s : String) : String :=
  String.mk (((s.toList.dropWhile (fun c => cs.contains c)).reverse.dropWhile
    (fun c => cs.contains c)).reverse)

/-- Python `str.split()` with no argument: split on runs of whitespace,
discarding empty tokens. -/
def pySplitAux : List Char → List Char → List String
  | [], acc => if acc = [] then [] else [String.mk acc.reverse]
  | c :: cs, acc =>
    if c.isWhitespace then
      if acc = [] then pySplitAux cs []
      else String.mk acc.reverse :: pySplitAux cs []
    else pySplitAux cs (c :: acc)

/-- Entry point of the whitespace tokenizer. -/
def pySplit (s : String) : List String := pySplitAux s.toList []

/-- Python split on a newline separator: cut at every newline, keeping
empty pieces. -/
def splitLinesAux : List Char → List Char → List String
  | [], acc => [String.mk acc.reverse]
  | c :: cs, acc =>
    if c = '\n' then String.mk acc.reverse :: splitLinesAux cs []
    else splitLinesAux cs (c :: acc)

/-- Entry point of the line splitter. -/
def splitLines (s : String) : List String := splitLinesAux s.toList []

/-- Python `str.lower()` on the ASCII command lines handled here. -/
def pyLower (s : String) : String := String.mk (s.toList.map Char.toLower)

/-- The shared per-line preprocessing of both variants of
`process_llm_response`: `clean_line = line.strip().strip(quotes)` followed
by `parts = clean_line.lower().split()`. -/
def clean_parts (line : String) : List String :=
  let clean_line := pyStripChars ['\'', '"'] (pyStrip line)
  pySplit (pyLower clean_line)

namespace Controller

/-- One loop iteration of `process_llm_response` in
`chat2snack_controller.py`.  The dispense branch calls
`generate_fpga_command(dis1pense_now=True)`; `dis1pense_now` is not a
parameter of `generate_fpga_command`, so Python raises `TypeError` before
any state change — modelled as `none`.  A quantity above `MAX_QTY` is
reported and ignored (`continue`); a non-integer quantity is a caught
`ValueError` (`continue`); unknown leading tokens are reported and
skipped. -/
def process_line (t : Table) (line : String) : Option Table :=
  match clean_parts line with
  | [] => some t
  | command :: rest =>
    if command = "dispense" then none
    else if command = "add" ∨ command = "remove" then
      match rest with
      | [item, qstr] =>
        match parseInt qstr with
        | none => some t
        | some qty =>
          if qty > MAX_QTY then some t
          else some (update_order t item (if command = "remove" then -qty else qty))
      | _ => some t
    else some t

/-- Runs lines in order; stops at the first `TypeError`, returning the table
reached so far and a flag recording that the uncaught exception aborted the
remaining lines. -/
def process_lines (t : Table) : List String → Table × Bool
  | [] => (t, false)
  | l :: ls =>
    match process_line t l with
    | some t' => process_lines t' ls
    | none => (t, true)

/-- Function `process_llm_response(llm_output)` of
`chat2snack_controller.py`: iterate `process_line` over the stripped
output split at newlines. -/
def process_llm_response (t : Table) (llm_output : String) : Table × Bool :=
  process_lines t (splitLines (pyStrip llm_output))

end Controller

namespace App

/-- One loop iteration of `process_llm_response` in `app.py`: the dispense
branch encodes with the flag set, hands the payload to the transport
(`send_to_fpga` catches every exception, so the table update below does not
depend on the transport outcome) and clears the order; add/remove lines
normalize the `icecream` alias and clamp a requested quantity above
`MAX_QTY` down to `MAX_QTY` before applying it. -/
def process_line (t : Table) (line : String) : Table :=
  match clean_parts line with
  | [] => t
  | command :: rest =>
    if command = "dispense" then
      { burger := 0, fries := 0, soda := 0, ice_cream := 0, pizza := 0 }
    else if command = "add" ∨ command = "remove" then
      match rest with
      | [item0, qstr] =>
        match parseInt qstr with
        | none => t
        | some qty0 =>
          let item := if item0 = "icecream" then "ice_cream" else item0
          let qty1 := if qty0 > MAX_QTY then MAX_QTY else qty0
          update_order t item (if command = "remove" then -qty1 else qty1)
      | _ => t
    else t

/-- Function `process_llm_response(llm_output)` of `app.py`. -/
def process_llm_response (t : Table) (llm_output : String) : Table :=
  (splitLines (pyStrip llm_output)).foldl process_line t

end App

/-- All five quantities lie in `[0, MAX_QTY]`. -/
def inRangeT (t : Table) : Prop :=
  0 ≤ t.burger ∧ t.burger ≤ 7 ∧ 0 ≤ t.fries ∧ t.fries ≤ 7 ∧
    0 ≤ t.soda ∧ t.soda ≤ 7 ∧ 0 ≤ t.ice_cream ∧ t.ice_cream ≤ 7 ∧
    0 ≤ t.pizza ∧ t.pizza ≤ 7

instance (t : Table) : Decidable (inRangeT t) := by
  unfold inRangeT; infer_instance

/- Arithmetic facts about the bit packing. -/

theorem mask3_lt (q : Int) : mask3 q < 8 := by
  unfold mask3
  have h1 : 0 ≤ q % 8 := Int.emod_nonneg q (by decide)
  have h2 : q % 8 < 8 := Int.emod_lt_of_pos q (by decide)
  omega

theorem mask3_of_inRange (q : Int) (h0 : 0 ≤ q) (h7 : q ≤ 7) :
    (mask3 q : Int) = q := by
  unfold mask3
  have : q % 8 = q := Int.emod_eq_of_lt h0 (by omega)
  rw [this]
  omega

/-- Bitwise or with a shifted value is plain addition when the low part fits
below the shift. -/
theorem lor_shift_eq_add (k x y : Nat) (hx : x < 2 ^ k) :
    x ||| (y <<< k) = x + y * 2 ^ k := by
  refine Nat.eq_of_testBit_eq fun j => ?_
  rw [Nat.testBit_lor, Nat.testBit_shiftLeft]
  rcases Nat.lt_or_ge j k with hj | hj
  · have hkj : ¬ (k ≤ j) := by omega
    simp only [hkj, decide_eq_false_iff_not.mpr hkj, Bool.false_and, Bool.or_false]
    simp only [Nat.testBit_to_div_mod]
    have hy : y * 2 ^ k = 2 ^ j * (y * 2 ^ (k - j)) := by
      rw [show (2 : Nat) ^ k = 2 ^ (k - j) * 2 ^ j by rw [← pow_add]; congr 1; omega]
      ring
    have hpos : 0 < (2 : Nat) ^ j := Nat.pos_pow_of_pos j (by norm_num)
    rw [hy, Nat.add_mul_div_left _ _ hpos]
    obtain ⟨e, he⟩ : ∃ e, k - j = e + 1 := ⟨k - j - 1, by omega⟩
    have h2 : y * 2 ^ (k - j) = (y * 2 ^ e) * 2 := by rw [he, pow_succ]; ring
    rw [h2, Nat.add_mul_mod_self_right]
    simp
  · have hxj : x.testBit j = false :=
      Nat.testBit_eq_false_of_lt
        (Nat.lt_of_lt_of_le hx (Nat.pow_le_pow_right (by norm_num) hj))
    simp only [hxj, Bool.false_or, hj, decide_eq_true_eq, Bool.true_and,
      decide_eq_true (show k ≤ j from hj)]
    simp only [Nat.testBit_to_div_mod]
    have hpos : 0 < (2 : Nat) ^ k := Nat.pos_pow_of_pos k (by norm_num)
    rw [show (2 : Nat) ^ j = 2 ^ k * 2 ^ (j - k) by rw [← pow_add]; congr 1; omega,
      ← Nat.div_div_eq_div_mul, show y * 2 ^ k = 2 ^ k * y from Nat.mul_comm _ _,
      Nat.add_mul_div_left _ _ hpos, Nat.div_eq_of_lt hx, Nat.zero_add]
    simp

theorem or_step0 (y : Nat) : 0 ||| (y <<< 0) = y := by
  simpa using lor_shift_eq_add 0 0 y (by norm_num)

theorem or_step3 (x y : Nat) (hx : x < 8) : x ||| (y <<< 3) = x + y * 8 := by
  simpa using lor_shift_eq_add 3 x y (by norm_num; exact hx)

theorem or_step6 (x y : Nat) (hx : x < 64) : x ||| (y <<< 6) = x + y * 64 := by
  simpa using lor_shift_eq_add 6 x y (by norm_num; exact hx)

theorem or_step9 (x y : Nat) (hx : x < 512) : x ||| (y <<< 9) = x + y * 512 := by
  simpa using lor_shift_eq_add 9 x y (by norm_num; exact hx)

theorem or_step12 (x y : Nat) (hx : x < 4096) : x ||| (y <<< 12) = x + y * 4096 := by
  simpa using lor_shift_eq_add 12 x y (by norm_num; exact hx)

theorem or_step15 (x : Nat) (hx : x < 32768) : x ||| (1 <<< 15) = x + 32768 := by
  simpa using lor_shift_eq_add 15 x 1 (by norm_num; exact hx)

/-- The packed command word, written as a plain sum: the five 3-bit fields
live at disjoint offsets, so the or-accumulation is addition. -/
theorem gen_eq_sum (t : Table) (d : Bool) :
    (generate_fpga_command t d).1 =
      mask3 t.burger + mask3 t.fries * 8 + mask3 t.soda * 64 +
        mask3 t.ice_cream * 512 + mask3 t.pizza * 4096 +
        (if d then 32768 else 0) := by
  have hb := mask3_lt t.burger
  have hf := mask3_lt t.fries
  have hs := mask3_lt t.soda
  have hi := mask3_lt t.ice_cream
  have hp := mask3_lt t.pizza
  simp only [generate_fpga_command,
    show FOOD_BIT_OFFSETS "burger" = 0 from rfl,
    show FOOD_BIT_OFFSETS "fries" = 3 from rfl,
    show FOOD_BIT_OFFSETS "soda" = 6 from rfl,
    show FOOD_BIT_OFFSETS "ice_cream" = 9 from rfl,
    show FOOD_BIT_OFFSETS "pizza" = 12 from rfl,
    DISPENSE_BIT_OFFSET]
  rw [or_step0, or_step3 _ _ hb, or_step6 _ _ (by omega), or_step9 _ _ (by omega),
    or_step12 _ _ (by omega)]
  cases d
  · simp
  · simp only [Bool.true_eq, if_pos rfl]
    rw [or_step15 _ (by omega)]
    simp

theorem gen_snd (t : Table) (d : Bool) :
    (generate_fpga_command t d).2 = format016b (generate_fpga_command t d).1 := rfl

/- Facts about the ledger mutator. -/

theorem update_order_inRange (t : Table) (f : String) (q : Int)
    (h : inRangeT t) : inRangeT (update_order t f q) := by
  unfold update_order
  by_cases hf : f ∈ foods
  · rw [if_neg (not_not_intro hf)]
    have hf5 : f = "burger" ∨ f = "fries" ∨ f = "soda" ∨ f = "ice_cream" ∨ f = "pizza" := by
      simpa [foods] using hf
    unfold inRangeT at h ⊢
    rcases hf5 with rfl | rfl | rfl | rfl | rfl <;>
      simp only [MAX_QTY] <;>
      split_ifs <;> simp_all [Table.get, Table.set] <;> omega
  · rw [if_pos hf]; exact h

theorem update_order_frame (t : Table) (f : String) (q : Int) :
    (f ≠ "burger" → (update_order t f q).burger = t.burger) ∧
    (f ≠ "fries" → (update_order t f q).fries = t.fries) ∧
    (f ≠ "soda" → (update_order t f q).soda = t.soda) ∧
    (f ≠ "ice_cream" → (update_order t f q).ice_cream = t.ice_cream) ∧
    (f ≠ "pizza" → (update_order t f q).pizza = t.pizza) := by
  unfold update_order
  by_cases hf : f ∈ foods
  · rw [if_neg (not_not_intro hf)]
    have hf5 : f = "burger" ∨ f = "fries" ∨ f = "soda" ∨ f = "ice_cream" ∨ f = "pizza" := by
      simpa [foods] using hf
    rcases hf5 with rfl | rfl | rfl | rfl | rfl <;>
      refine ⟨?_, ?_, ?_, ?_, ?_⟩ <;> intro hne <;>
      first
        | exact absurd rfl hne
        | (dsimp only; split_ifs <;> simp [Table.set])
  · rw [if_pos hf]
    exact ⟨fun _ => rfl, fun _ => rfl, fun _ => rfl, fun _ => rfl, fun _ => rfl⟩

theorem update_order_unknown (t : Table) (f : String) (q : Int) (hf : f ∉ foods) :
    update_order t f q = t := by
  unfold update_order; rw [if_pos hf]

theorem apply_ops_inRange (ops : List (String × Int)) :
    ∀ t : Table, inRangeT t → inRangeT (apply_ops t ops) := by
  induction ops with
  | nil => intro t h; exact h
  | cons op ops ih =>
    intro t h
    show inRangeT (apply_ops (update_order t op.1 op.2) ops)
    exact ih _ (update_order_inRange t op.1 op.2 h)

/- Facts about the binary rendering. -/

theorem binDigitsGo_length_le : ∀ (f n k : Nat), n ≤ f → n < 2 ^ k →
    (binDigitsGo f n).length ≤ k := by
  intro f
  induction f with
  | zero =>
    intro n k h1 _
    have : n = 0 := by omega
    subst this
    simp [binDigitsGo]
  | succ f ih =>
    intro n k h1 h2
    match n, h1, h2 with
    | 0, _, _ => simp [binDigitsGo]
    | m + 1, h1, h2 =>
      have hk : k ≠ 0 := by
        rintro rfl
        simp at h2
      obtain ⟨j, rfl⟩ : ∃ j, k = j + 1 := ⟨k - 1, by omega⟩
      have hpow : (2 : Nat) ^ (j + 1) = 2 * 2 ^ j := by rw [pow_succ]; ring
      have h2' : (m + 1) / 2 < 2 ^ j := by omega
      have h1' : (m + 1) / 2 ≤ f := by omega
      have := ih ((m + 1) / 2) j h1' h2'
      simp only [binDigitsGo, List.length_append, List.length_cons, List.length_nil]
      omega

theorem format016b_length (n : Nat) (h : n < 65536) :
    (format016b n).length = 16 := by
  have hl := binDigitsGo_length_le n n 16 (Nat.le_refl n) (by norm_num; omega)
  unfold format016b
  simp only [String.length, String.mk, List.length_append, List.length_replicate]
  omega

/- Settlement of the spec claims. -/

/-- Claim C1: the spec (and `send_16bit_command` in `test.py`, whose comments
document the low-byte-first hardware contract) requires the two-byte wire
payload to be low byte first, high byte second.  `send_to_fpga` in both
`chat2snack_controller.py` and `app.py` instead writes the high byte first:
at command word 41024 = 0xA040 it writes [0xA0, 0x40] where the claimed
payload is [0x40, 0xA0]. -/
theorem c1_send_to_fpga_writes_high_byte_first :
    send_to_fpga_bytes 41024 = [160, 64] ∧
    send_16bit_command_bytes 41024 = [64, 160] ∧
    send_to_fpga_bytes 41024 ≠ send_16bit_command_bytes 41024 := by decide

/-- Claim C2: starting from a table with all quantities in [0, 7], every
sequence of add/remove operations applied through `update_order` keeps every
quantity in [0, 7]; applying delta +10 at quantity 5 yields 7, and applying
delta -10 at quantity 2 yields 0. -/
theorem c2_quantities_always_clamped_in_range :
    (∀ (t : Table) (ops : List (String × Int)), inRangeT t → inRangeT (apply_ops t ops)) ∧
    (∀ t : Table, inRangeT t → t.soda = 5 → (update_order t "soda" 10).soda = 7) ∧
    (∀ t : Table, inRangeT t → t.soda = 2 → (update_order t "soda" (-10)).soda = 0) := by
  refine ⟨fun t ops h => apply_ops_inRange ops t h, ?_, ?_⟩
  · intro t _ h5
    simp [update_order, foods, Table.get, Table.set, MAX_QTY, h5]
  · intro t _ h2
    simp [update_order, foods, Table.get, Table.set, MAX_QTY, h2]

/-- Witness for claim C2 at concrete inputs. -/
theorem c2_quantities_always_clamped_in_range_witness :
    inRangeT (apply_ops zeroTable [("soda", 3), ("burger", 99), ("fries", -5)]) ∧
    (update_order ⟨1, 2, 5, 3, 4⟩ "soda" 10).soda = 7 ∧
    (update_order ⟨1, 2, 2, 3, 4⟩ "soda" (-10)).soda = 0 :=
  ⟨c2_quantities_always_clamped_in_range.1 zeroTable _ (by decide),
   c2_quantities_always_clamped_in_range.2.1 ⟨1, 2, 5, 3, 4⟩ (by decide) (by decide),
   c2_quantities_always_clamped_in_range.2.2 ⟨1, 2, 2, 3, 4⟩ (by decide) (by decide)⟩

/-- Claim C3: for a table with all quantities in [0, 7], decoding bit fields
0-2, 3-5, 6-8, 9-11, 12-14 of the encoder output (division and remainder by
the field bases) recovers exactly burger, fries, soda, ice_cream, pizza, and
bit 15 equals the dispense flag; encoding with the flag set differs from
encoding without it exactly by 2^15. -/
theorem c3_encode_decode_roundtrip (t : Table) (d : Bool) (h : inRangeT t) :
    (((generate_fpga_command t d).1 % 8 : Nat) : Int) = t.burger ∧
    (((generate_fpga_command t d).1 / 8 % 8 : Nat) : Int) = t.fries ∧
    (((generate_fpga_command t d).1 / 64 % 8 : Nat) : Int) = t.soda ∧
    (((generate_fpga_command t d).1 / 512 % 8 : Nat) : Int) = t.ice_cream ∧
    (((generate_fpga_command t d).1 / 4096 % 8 : Nat) : Int) = t.pizza ∧
    ((generate_fpga_command t d).1).testBit 15 = d ∧
    (generate_fpga_command t true).1 = (generate_fpga_command t false).1 + 32768 := by
  unfold inRangeT at h
  obtain ⟨hb0, hb7, hf0, hf7, hs0, hs7, hi0, hi7, hp0, hp7⟩ := h
  have eb := mask3_of_inRange t.burger hb0 hb7
  have ef := mask3_of_inRange t.fries hf0 hf7
  have es := mask3_of_inRange t.soda hs0 hs7
  have ei := mask3_of_inRange t.ice_cream hi0 hi7
  have ep := mask3_of_inRange t.pizza hp0 hp7
  have hb := mask3_lt t.burger
  have hf := mask3_lt t.fries
  have hs := mask3_lt t.soda
  have hi := mask3_lt t.ice_cream
  have hp := mask3_lt t.pizza
  have h1 := gen_eq_sum t true
  have h0 := gen_eq_sum t false
  simp at h1 h0
  have hc := gen_eq_sum t d
  cases d
  · simp at hc
    refine ⟨?_, ?_, ?_, ?_, ?_, ?_, by omega⟩
    · rw [show (generate_fpga_command t false).1 % 8 = mask3 t.burger by omega]; exact eb
    · rw [show (generate_fpga_command t false).1 / 8 % 8 = mask3 t.fries by omega]; exact ef
    · rw [show (generate_fpga_command t false).1 / 64 % 8 = mask3 t.soda by omega]; exact es
    · rw [show (generate_fpga_command t false).1 / 512 % 8 = mask3 t.ice_cream by omega]
      exact ei
    · rw [show (generate_fpga_command t false).1 / 4096 % 8 = mask3 t.pizza by omega]
      exact ep
    · rw [Nat.testBit_to_div_mod]
      simp only [decide_eq_false_iff_not]
      omega
  · simp at hc
    refine ⟨?_, ?_, ?_, ?_, ?_, ?_, by omega⟩
    · rw [show (generate_fpga_command t true).1 % 8 = mask3 t.burger by omega]; exact eb
    · rw [show (generate_fpga_command t true).1 / 8 % 8 = mask3 t.fries by omega]; exact ef
    · rw [show (generate_fpga_command t true).1 / 64 % 8 = mask3 t.soda by omega]; exact es
    · rw [show (generate_fpga_command t true).1 / 512 % 8 = mask3 t.ice_cream by omega]
      exact ei
    · rw [show (generate_fpga_command t true).1 / 4096 % 8 = mask3 t.pizza by omega]
      exact ep
    · rw [Nat.testBit_to_div_mod]
      simp only [decide_eq_true_eq]
      omega

/-- Witness for claim C3 at the table (1, 2, 3, 4, 5) with the flag set. -/
theorem c3_encode_decode_roundtrip_witness :
    inRangeT (⟨1, 2, 3, 4, 5⟩ : Table) ∧
    ((((generate_fpga_command ⟨1, 2, 3, 4, 5⟩ true).1 % 8 : Nat) : Int) = 1 ∧
     (((generate_fpga_command ⟨1, 2, 3, 4, 5⟩ true).1 / 8 % 8 : Nat) : Int) = 2 ∧
     (((generate_fpga_command ⟨1, 2, 3, 4, 5⟩ true).1 / 64 % 8 : Nat) : Int) = 3 ∧
     (((generate_fpga_command ⟨1, 2, 3, 4, 5⟩ true).1 / 512 % 8 : Nat) : Int) = 4 ∧
     (((generate_fpga_command ⟨1, 2, 3, 4, 5⟩ true).1 / 4096 % 8 : Nat) : Int) = 5 ∧
     ((generate_fpga_command ⟨1, 2, 3, 4, 5⟩ true).1).testBit 15 = true ∧
     (generate_fpga_command ⟨1, 2, 3, 4, 5⟩ true).1 =
       (generate_fpga_command ⟨1, 2, 3, 4, 5⟩ false).1 + 32768) :=
  ⟨by decide, c3_encode_decode_roundtrip ⟨1, 2, 3, 4, 5⟩ true (by decide)⟩

/-- Claim C4, counterexample: on the table {pizza: 2, soda: 1, rest 0} the
encoder with the dispense flag set does not produce the binary string
claimed by the spec (the claimed string decodes to ice_cream = 1, soda = 1,
not pizza = 2, soda = 1). -/
theorem c4_claimed_binary_string_refuted :
    (generate_fpga_command ⟨0, 0, 1, 0, 2⟩ true).2 ≠ "1000001001000000" := by decide

/-- Claim C4, amended: on {pizza: 2, soda: 1, rest 0} the encoder with the
dispense flag set produces command 41024 with binary rendering
1010000001000000 (bit 15, pizza bits 12-14 = 010, soda bits 6-8 = 001), and
processing the line of a dispense directive through the `app.py` dispatch
resets every quantity to zero. -/
theorem c4_dispense_produces_41024_and_resets :
    generate_fpga_command ⟨0, 0, 1, 0, 2⟩ true = (41024, "1010000001000000") ∧
    App.process_llm_response ⟨0, 0, 1, 0, 2⟩ "dispense" = zeroTable := by decide

/-- Claim C5, counterexample: the `chat2snack_controller.py` variant skips a
line whose written quantity exceeds 7 — processing the single over-max add
line leaves soda at 0 on an empty table, whereas the claimed applied-and-
clamped behaviour would leave it at 7 (as `update_order` itself shows). -/
theorem c5_controller_skips_overmax_line :
    (Controller.process_llm_response zeroTable "add soda 10").1.soda = 0 ∧
    (update_order zeroTable "soda" 10).soda = 7 := by decide

/-- Claim C5, amended: for every line whose cleaned tokens are
add, an item and a written quantity parsing to an integer above 7, the
`app.py` variant clamps the request to `MAX_QTY` and applies it through
`update_order` (after alias normalization) — the line is never rejected —
while the `chat2snack_controller.py` variant ignores such a line entirely,
leaving the table unchanged. -/
theorem c5_overmax_policy_by_variant (t : Table) (l it qs : String) (q : Int)
    (hcp : clean_parts l = ["add", it, qs]) (hpi : parseInt qs = some q)
    (hq : q > 7) :
    App.process_line t l = update_order t (if it = "icecream" then "ice_cream" else it) 7 ∧
    Controller.process_line t l = some t := by
  constructor
  · unfold App.process_line
    rw [hcp]
    dsimp only
    rw [if_neg (by decide), if_pos (Or.inl rfl), hpi]
    dsimp only
    simp only [show MAX_QTY = (7 : Int) from rfl, if_pos hq]
    simp
  · unfold Controller.process_line
    rw [hcp]
    dsimp only
    rw [if_neg (by decide), if_pos (Or.inl rfl), hpi]
    dsimp only
    simp only [show MAX_QTY = (7 : Int) from rfl, if_pos hq]

/-- Witness for claim C5 at the line of an over-max soda add on the empty
table. -/
theorem c5_overmax_policy_by_variant_witness :
    clean_parts "add soda 10" = ["add", "soda", "10"] ∧
    parseInt "10" = some 10 ∧ (10 : Int) > 7 ∧
    App.process_line zeroTable "add soda 10" = update_order zeroTable "soda" 7 ∧
    Controller.process_line zeroTable "add soda 10" = some zeroTable :=
  ⟨by decide, by decide, by decide,
   (c5_overmax_policy_by_variant zeroTable "add soda 10" "soda" "10" 10
     (by decide) (by decide) (by decide)).1,
   (c5_overmax_policy_by_variant zeroTable "add soda 10" "soda" "10" 10
     (by decide) (by decide) (by decide)).2⟩

/-- Claim C6, counterexample: a negative written quantity is accepted by the
parser and mutates the table — the remove line with quantity -3 on an empty
table sets soda to 3 (Python int() accepts the sign, and remove negates it
into an addition). -/
theorem c6_negative_qty_mutates_table :
    App.process_llm_response zeroTable "remove soda -3" = ⟨0, 0, 3, 0, 0⟩ ∧
    (⟨0, 0, 3, 0, 0⟩ : Table) ≠ zeroTable := by decide

/-- Claim C6, amended: every add or remove line whose written quantity
parses to a negative integer is a valid operation in both variants and is
handed to `update_order`: a remove of a negative quantity applies the
positive delta, an add of a negative quantity applies the negative delta,
each clamped by `update_order` (in `app.py` after alias normalization). -/
theorem c6_negative_qty_parsed_and_applied (t : Table) (l it qs : String) (q : Int)
    (hpi : parseInt qs = some q) (hq : q < 0) :
    (clean_parts l = ["add", it, qs] →
      App.process_line t l = update_order t (if it = "icecream" then "ice_cream" else it) q ∧
      Controller.process_line t l = some (update_order t it q)) ∧
    (clean_parts l = ["remove", it, qs] →
      App.process_line t l = update_order t (if it = "icecream" then "ice_cream" else it) (-q) ∧
      Controller.process_line t l = some (update_order t it (-q))) := by
  have hq7 : ¬ (q > MAX_QTY) := by
    show ¬ (q > (7 : Int))
    omega
  constructor
  · intro hcp
    constructor
    · unfold App.process_line
      rw [hcp]
      dsimp only
      rw [if_neg (by decide), if_pos (Or.inl rfl), hpi]
      dsimp only
      simp only [if_neg hq7]
      simp
    · unfold Controller.process_line
      rw [hcp]
      dsimp only
      rw [if_neg (by decide), if_pos (Or.inl rfl), hpi]
      dsimp only
      simp only [if_neg hq7]
      simp
  · intro hcp
    constructor
    · unfold App.process_line
      rw [hcp]
      dsimp only
      rw [if_neg (by decide), if_pos (Or.inr rfl), hpi]
      dsimp only
      simp only [if_neg hq7]
      simp
    · unfold Controller.process_line
      rw [hcp]
      dsimp only
      rw [if_neg (by decide), if_pos (Or.inr rfl), hpi]
      dsimp only
      simp only [if_neg hq7]
      simp

/-- Witness for claim C6 at a remove line and an add line with written
quantity -3 on the empty table. -/
theorem c6_negative_qty_parsed_and_applied_witness :
    parseInt "-3" = some (-3) ∧ (-3 : Int) < 0 ∧
    clean_parts "remove soda -3" = ["remove", "soda", "-3"] ∧
    clean_parts "add fries -3" = ["add", "fries", "-3"] ∧
    (App.process_line zeroTable "remove soda -3" = update_order zeroTable "soda" (-(-3)) ∧
     Controller.process_line zeroTable "remove soda -3" =
       some (update_order zeroTable "soda" (-(-3)))) ∧
    (App.process_line zeroTable "add fries -3" = update_order zeroTable "fries" (-3) ∧
     Controller.process_line zeroTable "add fries -3" =
       some (update_order zeroTable "fries" (-3))) :=
  ⟨by decide, by decide, by decide, by decide,
   (c6_negative_qty_parsed_and_applied zeroTable "remove soda -3" "soda" "-3" (-3)
     (by decide) (by decide)).2 (by decide),
   (c6_negative_qty_parsed_and_applied zeroTable "add fries -3" "fries" "-3" (-3)
     (by decide) (by decide)).1 (by decide)⟩

/-- Claim C7, counterexample: in `chat2snack_controller.py` there is no
alias handling, so the icecream-alias add line is passed verbatim to
`update_order`, rejected as an invalid item, and the table stays all-zero
(ice_cream never becomes 3). -/
theorem c7_controller_rejects_icecream_alias :
    (Controller.process_llm_response zeroTable "add icecream 3").1 = zeroTable ∧
    zeroTable.ice_cream = 0 := by decide

/-- Claim C7, amended: only the `app.py` variant normalizes the icecream
alias to ice_cream and applies the quantity (reaching 3 from an empty
table); the `chat2snack_controller.py` variant treats the alias as an
unknown item and leaves the table unchanged. -/
theorem c7_alias_normalized_in_app_only :
    (∀ t : Table, App.process_line t "add icecream 3" = update_order t "ice_cream" 3) ∧
    (App.process_llm_response zeroTable "add icecream 3").ice_cream = 3 ∧
    (∀ t : Table, Controller.process_line t "add icecream 3" = some t) :=
  ⟨fun _ => rfl, by decide, fun _ => rfl⟩

/-- Claim C8: in the cited `chat2snack_controller.py`, processing the block
of an add line, a dispense line and another add line never reaches the
table reset: the dispense branch raises `TypeError` (the `dis1pense_now`
typo), the crash flag is set, the table keeps soda = 2 instead of being
cleared, and the trailing line is never processed — the claimed final state
soda = 1 with the rest 0 is unreachable. -/
theorem c8_controller_dispense_typo_aborts_block :
    Controller.process_llm_response zeroTable "add soda 2\ndispense\nadd soda 1" =
      (⟨0, 0, 2, 0, 0⟩, true) ∧
    (⟨0, 0, 2, 0, 0⟩ : Table) ≠ zeroTable := by decide

/-- Claim C9: for every table state — including quantities outside [0, 7] —
and every flag, the encoder masks each quantity to its low 3 bits, so the
command word is below 2^16 and its binary rendering has exactly 16
characters. -/
theorem c9_encoder_output_bounded (t : Table) (d : Bool) :
    (generate_fpga_command t d).1 < 65536 ∧
      ((generate_fpga_command t d).2).length = 16 := by
  have hc := gen_eq_sum t d
  have hb := mask3_lt t.burger
  have hf := mask3_lt t.fries
  have hs := mask3_lt t.soda
  have hi := mask3_lt t.ice_cream
  have hp := mask3_lt t.pizza
  have hlt : (generate_fpga_command t d).1 < 65536 := by
    cases d <;> simp at hc <;> omega
  exact ⟨hlt, by rw [gen_snd]; exact format016b_length _ hlt⟩

/-- Claim C10: `update_order` changes at most the entry of the item it is
given — every other quantity is unchanged — and an item outside the five
known identifiers leaves the whole table unchanged. -/
theorem c10_update_order_changes_at_most_one (t : Table) (f : String) (q : Int) :
    (f ≠ "burger" → (update_order t f q).burger = t.burger) ∧
    (f ≠ "fries" → (update_order t f q).fries = t.fries) ∧
    (f ≠ "soda" → (update_order t f q).soda = t.soda) ∧
    (f ≠ "ice_cream" → (update_order t f q).ice_cream = t.ice_cream) ∧
    (f ≠ "pizza" → (update_order t f q).pizza = t.pizza) ∧
    (f ∉ foods → update_order t f q = t) :=
  ⟨(update_order_frame t f q).1, (update_order_frame t f q).2.1,
   (update_order_frame t f q).2.2.1, (update_order_frame t f q).2.2.2.1,
   (update_order_frame t f q).2.2.2.2, fun hf => update_order_unknown t f q hf⟩

/-- Witness for claim C10: updating soda leaves burger untouched, and an
unknown item leaves the table unchanged. -/
theorem c10_update_order_changes_at_most_one_witness :
    (update_order ⟨1, 2, 3, 4, 5⟩ "soda" 100).burger = (⟨1, 2, 3, 4, 5⟩ : Table).burger ∧
    update_order ⟨1, 2, 3, 4, 5⟩ "banana" 2 = ⟨1, 2, 3, 4, 5⟩ :=
  ⟨(c10_update_order_changes_at_most_one ⟨1, 2, 3, 4, 5⟩ "soda" 100).1 (by decide),
   (c10_update_order_changes_at_most_one ⟨1, 2, 3, 4, 5⟩ "banana" 2).2.2.2.2.2 (by decide)⟩
